import Mathlib

/-!
Shallow embedding of `apscheduler/triggers/combining.py`.

Timestamps are modelled as integers: the combinators only compare, take
`min`/`max` of, and test equality of datetimes, and `Int` has the same
linear-order structure.  A sub-trigger is modelled by exactly the interface
the combinators consume: its `get_next_fire_time` behaviour plus the two
pieces of data the serialization layer reads from it (the type reference
produced by `obj_to_ref(trigger.__class__)` and the payload of its
`__getstate__`).  Fallible Python code is embedded with `Except`/an error
component; the distinct raise sites get distinct `PyError` values.
-/

abbrev Timestamp := Int

/-- The opaque payload of a sub-trigger's own `__getstate__`. -/
abbrev SubState := Int

/-- A sub-trigger, as consumed by `BaseCombiningTrigger`: the
`get_next_fire_time(previous_fire_time, now)` behaviour together with the
data read during serialization. -/
structure Trigger where
  clsref : String
  getstate : SubState
  get_next_fire_time : Option Timestamp → Timestamp → Option Timestamp

/-- The Python-level failures of the embedded code:
`malformed` — the multi-trigger branch of `AndTrigger.get_next_fire_time`
reaches line 91, whose lambda is syntactically invalid Python (SyntaxError);
`unsupportedVersion` — the `ValueError` raised by the version guard of
`BaseCombiningTrigger.__setstate__` (lines 31–34);
`lookupFailed` — the `LookupError` raised by `ref_to_obj` when a stored class
reference cannot be resolved;
`minEmptySeq` — the `ValueError` raised by Python's builtin `min` on an empty
sequence. -/
inductive PyError where
  | malformed
  | unsupportedVersion
  | lookupFailed
  | minEmptySeq
  deriving DecidableEq

/-- Modelled from the spec: `_apply_jitter` is inherited from
`apscheduler.triggers.base.BaseTrigger`, which is not part of this excerpt.
Per §4.4 of the spec, with no bound the time is returned unchanged; with a
bound the time is offset by a random duration drawn from `[-bound, +bound]`
and the result is clamped so it is never earlier than `now`.  The random
draw is made explicit as the `offset` argument (clamped into the legal
interval). -/
def apply_jitter (time : Timestamp) (jitter : Option Nat) (now : Timestamp)
    (offset : Int) : Timestamp :=
  match jitter with
  | none => time
  | some bound => max now (time + max (-(bound : Int)) (min (bound : Int) offset))

/-- `BaseCombiningTrigger.__slots__ = ('triggers', 'jitter')`
(combining.py lines 15–20). -/
structure BaseCombiningTrigger where
  triggers : List Trigger
  jitter : Option Nat

/-- The serialized dict produced by `__getstate__` and consumed by
`__setstate__`: key `version` is read with `state.get('version', 1)` and may
therefore be absent, keys `triggers` (a list of `(class reference, inner
state)` pairs) and `jitter` are read by subscript. -/
structure TriggerState where
  version : Option Nat
  triggers : List (String × SubState)
  jitter : Option Nat

/-- `BaseCombiningTrigger.__getstate__` (combining.py lines 22–28). -/
def BaseCombiningTrigger.getstate (self : BaseCombiningTrigger) : TriggerState :=
  { version := some 1,
    triggers := self.triggers.map fun trigger => (trigger.clsref, trigger.getstate),
    jitter := self.jitter }

/-- The reconstruction loop of `__setstate__` (combining.py lines 37–42): for
each `(clsref, state)` pair, `ref_to_obj` resolves the class — raising
`LookupError` when it cannot; `apscheduler.util` is outside this excerpt, so
the registry is passed in as a function, per §6 of the spec — and the
sub-trigger is rebuilt from its inner state and appended.  `acc` is the
`self.triggers` list built so far, so a resolution failure leaves the partial
list, exactly as the Python loop would. -/
def setstateLoop
    (ref_to_obj : String → Option (SubState → Trigger)) (acc : List Trigger) :
    List (String × SubState) → List Trigger × Option PyError
  | [] => (acc, none)
  | (clsref, st) :: rest =>
    match ref_to_obj clsref with
    | none => (acc, some PyError.lookupFailed)
    | some mk => setstateLoop ref_to_obj (acc ++ [mk st]) rest

/-- `BaseCombiningTrigger.__setstate__` (combining.py lines 30–42), as explicit
state passing: the result is the object state after the call together with the
raised error, if any.  The version guard fires before anything is assigned, so
on that path `self` is returned unchanged; otherwise `jitter` is assigned
first and the trigger list is rebuilt by `setstateLoop`. -/
def BaseCombiningTrigger.setstate
    (ref_to_obj : String → Option (SubState → Trigger))
    (self : BaseCombiningTrigger) (state : TriggerState) :
    BaseCombiningTrigger × Option PyError :=
  if state.version.getD 1 > 1 then
    (self, some PyError.unsupportedVersion)
  else
    let res := setstateLoop ref_to_obj [] state.triggers
    ({ triggers := res.1, jitter := state.jitter }, res.2)

/-- `AndTrigger.get_next_fire_time` (combining.py lines 83–113).  With no
triggers the bare `return` yields `None` (lines 85–86); with exactly one
trigger it delegates to that trigger (lines 87–88).  With two or more
triggers execution reaches line 91, whose lambda
`x.interval_length if isinstance(x, IntervalTrigger)` is a conditional
expression with no `else` — invalid Python syntax, so that branch has no
run-time semantics (the module cannot even be imported); the branch is
embedded as the `PyError.malformed` failure. -/
def AndTrigger.get_next_fire_time (self : BaseCombiningTrigger)
    (previous_fire_time : Option Timestamp) (now : Timestamp) :
    Except PyError (Option Timestamp) :=
  match self.triggers with
  | [] => Except.ok none
  | [trigger] => Except.ok (trigger.get_next_fire_time previous_fire_time now)
  | _ => Except.error PyError.malformed

/-- Python's builtin `min` over a list, which raises `ValueError` on an empty
sequence. -/
def pyMin : List Int → Except PyError Int
  | [] => Except.error PyError.minEmptySeq
  | x :: xs =>
    match pyMin xs with
    | Except.ok m => Except.ok (min x m)
    | Except.error _ => Except.ok x

/-- Lines 137–139 of `OrTrigger.get_next_fire_time`: the comprehension that
queries every sub-trigger once with the same `(previous_fire_time, now)`
pair, followed by the comprehension that drops the `None` entries. -/
def or_fire_times (self : BaseCombiningTrigger)
    (previous_fire_time : Option Timestamp) (now : Timestamp) : List Timestamp :=
  (self.triggers.map fun trigger =>
    trigger.get_next_fire_time previous_fire_time now).filterMap fun fire_time => fire_time

/-- `OrTrigger.get_next_fire_time` (combining.py lines 136–143): when the
filtered list is non-empty (`if fire_times:`), jitter is applied to
`min(fire_times)`; otherwise `None` is returned. -/
def OrTrigger.get_next_fire_time (self : BaseCombiningTrigger)
    (previous_fire_time : Option Timestamp) (now : Timestamp) (offset : Int) :
    Except PyError (Option Timestamp) :=
  let fire_times := or_fire_times self previous_fire_time now
  if fire_times.isEmpty then Except.ok none
  else
    match pyMin fire_times with
    | Except.ok m => Except.ok (some (apply_jitter m self.jitter now offset))
    | Except.error e => Except.error e

/-- Behavioural equality of sub-triggers: same `get_next_fire_time`. -/
def SameBehaviour (a b : Trigger) : Prop :=
  a.get_next_fire_time = b.get_next_fire_time

/-- A sub-trigger behaving like a 2-unit interval: always proposes `now + 2`. -/
def everyTwo : Trigger :=
  { clsref := "interval2", getstate := 2,
    get_next_fire_time := fun _ now => some (now + 2) }

/-- A sub-trigger behaving like a 3-unit interval: always proposes `now + 3`. -/
def everyThree : Trigger :=
  { clsref := "interval3", getstate := 3,
    get_next_fire_time := fun _ now => some (now + 3) }

/-- A finished sub-trigger: its schedule has ended, it always returns `None`. -/
def alwaysNone : Trigger :=
  { clsref := "finished", getstate := 0,
    get_next_fire_time := fun _ _ => none }

/-- A sub-trigger that always proposes the fixed instant 100. -/
def alwaysHundred : Trigger :=
  { clsref := "hundred", getstate := 100,
    get_next_fire_time := fun _ _ => some 100 }

/-- Rebuilds a demo sub-trigger from its serialized payload. -/
def demoMk (s : SubState) : Trigger :=
  { clsref := "demo", getstate := s,
    get_next_fire_time := fun _ now => some (now + s) }

/-- A demo registry that resolves every reference to `demoMk`. -/
def demoReg : String → Option (SubState → Trigger) := fun _ => some demoMk

/-- A demo combinator holding two interval-like sub-triggers and a jitter. -/
def demoCombo : BaseCombiningTrigger :=
  { triggers := [demoMk 2, demoMk 3], jitter := some 1 }

/-! Helper lemmas about `pyMin`, `or_fire_times` and `setstateLoop`. -/

lemma pyMin_cons_ok (x : Int) (xs : List Int) :
    ∃ m, pyMin (x :: xs) = Except.ok m := by
  cases h : pyMin xs with
  | ok m => exact ⟨min x m, by simp [pyMin, h]⟩
  | error e => exact ⟨x, by simp [pyMin, h]⟩

lemma pyMin_error_nil {l : List Int} {e : PyError}
    (h : pyMin l = Except.error e) : l = [] := by
  cases l with
  | nil => rfl
  | cons x xs =>
    obtain ⟨m, hm⟩ := pyMin_cons_ok x xs
    rw [hm] at h
    exact Except.noConfusion h

lemma pyMin_mem : ∀ {l : List Int} {m : Int}, pyMin l = Except.ok m → m ∈ l := by
  intro l
  induction l with
  | nil => intro m h; simp [pyMin] at h
  | cons x xs ih =>
    intro m h
    cases hx : pyMin xs with
    | ok m' =>
      simp [pyMin, hx] at h
      subst h
      rcases min_choice x m' with h1 | h1 <;> rw [h1]
      · exact List.mem_cons_self x xs
      · exact List.mem_cons_of_mem x (ih hx)
    | error e =>
      simp [pyMin, hx] at h
      subst h
      exact List.mem_cons_self x xs

lemma pyMin_le : ∀ {l : List Int} {m : Int},
    pyMin l = Except.ok m → ∀ y ∈ l, m ≤ y := by
  intro l
  induction l with
  | nil => intro m h; simp [pyMin] at h
  | cons x xs ih =>
    intro m h y hy
    cases hx : pyMin xs with
    | ok m' =>
      simp [pyMin, hx] at h
      subst h
      rcases List.mem_cons.mp hy with h1 | h1
      · rw [h1]; exact min_le_left x m'
      · exact le_trans (min_le_right x m') (ih hx y h1)
    | error e =>
      have hnil := pyMin_error_nil hx
      subst hnil
      simp [pyMin] at h
      subst h
      rcases List.mem_cons.mp hy with h1 | h1
      · rw [h1]
      · simp at h1

lemma or_fire_times_eq_nil {self : BaseCombiningTrigger} {p : Option Timestamp}
    {n : Timestamp} :
    or_fire_times self p n = [] ↔
      ∀ t ∈ self.triggers, t.get_next_fire_time p n = none := by
  simp [or_fire_times, List.filterMap_eq_nil_iff]

lemma mem_or_fire_times {self : BaseCombiningTrigger} {p : Option Timestamp}
    {n : Timestamp} {m : Timestamp} :
    m ∈ or_fire_times self p n ↔
      ∃ t ∈ self.triggers, t.get_next_fire_time p n = some m := by
  simp [or_fire_times, List.mem_filterMap]

lemma setstateLoop_no_unsupported
    (ref_to_obj : String → Option (SubState → Trigger)) :
    ∀ (l : List (String × SubState)) (acc : List Trigger),
      (setstateLoop ref_to_obj acc l).2 ≠ some PyError.unsupportedVersion := by
  intro l
  induction l with
  | nil => intro acc; simp [setstateLoop]
  | cons hd tl ih =>
    intro acc
    obtain ⟨clsref, st⟩ := hd
    cases hreg : ref_to_obj clsref with
    | none => simp [setstateLoop, hreg]
    | some mk =>
      simp only [setstateLoop, hreg]
      exact ih (acc ++ [mk st])

lemma setstateLoop_roundtrip (ref_to_obj : String → Option (SubState → Trigger)) :
    ∀ (ts acc : List Trigger),
      (∀ t ∈ ts, ∃ mk, ref_to_obj t.clsref = some mk ∧
        SameBehaviour (mk t.getstate) t) →
      ∃ ts', setstateLoop ref_to_obj acc
          (ts.map fun t => (t.clsref, t.getstate)) = (acc ++ ts', none) ∧
        List.Forall₂ SameBehaviour ts' ts := by
  intro ts
  induction ts with
  | nil =>
    intro acc _
    exact ⟨[], by simp [setstateLoop], List.Forall₂.nil⟩
  | cons t rest ih =>
    intro acc h
    obtain ⟨mk, hreg, hbeh⟩ := h t (List.mem_cons_self t rest)
    obtain ⟨ts', hloop, hfa⟩ :=
      ih (acc ++ [mk t.getstate]) (fun u hu => h u (List.mem_cons_of_mem t hu))
    refine ⟨mk t.getstate :: ts', ?_, List.Forall₂.cons hbeh hfa⟩
    simp only [List.map_cons, setstateLoop, hreg, hloop]
    simp [List.append_assoc]

lemma forall₂_map_fire_times {l1 l2 : List Trigger}
    (h : List.Forall₂ SameBehaviour l1 l2) (p : Option Timestamp) (n : Timestamp) :
    (l1.map fun t => t.get_next_fire_time p n)
      = l2.map fun t => t.get_next_fire_time p n := by
  induction h with
  | nil => rfl
  | cons h1 _ ih =>
    simp only [List.map_cons, ih, List.cons.injEq, and_true]
    rw [show SameBehaviour _ _ from h1]

lemma or_congr_of_forall₂ {l1 l2 : List Trigger}
    (h : List.Forall₂ SameBehaviour l1 l2) (j : Option Nat) (p : Option Timestamp)
    (n : Timestamp) (off : Int) :
    OrTrigger.get_next_fire_time ⟨l1, j⟩ p n off
      = OrTrigger.get_next_fire_time ⟨l2, j⟩ p n off := by
  simp only [OrTrigger.get_next_fire_time, or_fire_times]
  rw [forall₂_map_fire_times h p n]

lemma and_congr_of_forall₂ {l1 l2 : List Trigger}
    (h : List.Forall₂ SameBehaviour l1 l2) (j : Option Nat) (p : Option Timestamp)
    (n : Timestamp) :
    AndTrigger.get_next_fire_time ⟨l1, j⟩ p n
      = AndTrigger.get_next_fire_time ⟨l2, j⟩ p n := by
  cases h with
  | nil => rfl
  | cons h1 htl =>
    cases htl with
    | nil =>
      simp only [AndTrigger.get_next_fire_time]
      rw [show SameBehaviour _ _ from h1]
    | cons h2 htl2 => rfl

/-! Claim theorems. -/

/-- Claim C1: the claim asserts that for two or more sub-triggers
`AndTrigger.get_next_fire_time` performs a rendezvous fixed-point search and
reports `RendezvousNotFound` when an iteration bound is exhausted.  The code
contains no such search, no iteration bound and no such error: its
multi-trigger branch is an abandoned LCM shortcut whose line 91 is invalid
Python, so on two interval-like sub-triggers the call fails with the
malformed-branch outcome instead of rendezvousing. -/
theorem and_multi_trigger_is_malformed :
    AndTrigger.get_next_fire_time ⟨[everyTwo, everyThree], none⟩ none 0
      = Except.error PyError.malformed := rfl

/-- Claim C2: the claim asserts that whenever any sub-trigger returns `None`
— including on the very first query — `AndTrigger.get_next_fire_time`
returns `None`.  With two sub-triggers whose first member is finished
(always returns `None`), the call does not return `None`: it fails in the
malformed multi-trigger branch, which never queries the sub-triggers. -/
theorem and_finished_sub_trigger_not_none :
    AndTrigger.get_next_fire_time ⟨[alwaysNone, everyTwo], none⟩ none 0
      = Except.error PyError.malformed := rfl

/-- Claim C7: a combinator with an empty sub-trigger sequence returns `None`
for every `(previous_fire_time, now)` pair, for both `AndTrigger`
(lines 85–86) and `OrTrigger` (empty filtered list, line 143). -/
theorem empty_combination (j : Option Nat) (p : Option Timestamp)
    (n : Timestamp) (off : Int) :
    AndTrigger.get_next_fire_time ⟨[], j⟩ p n = Except.ok none ∧
    OrTrigger.get_next_fire_time ⟨[], j⟩ p n off = Except.ok none :=
  ⟨rfl, rfl⟩

/-- Claim C8: an `AndTrigger` with exactly one sub-trigger returns exactly
that sub-trigger's `get_next_fire_time` result for the same inputs
(lines 87–88: direct delegation, no rendezvous). -/
theorem and_single_trigger_delegates (t : Trigger) (j : Option Nat)
    (p : Option Timestamp) (n : Timestamp) :
    AndTrigger.get_next_fire_time ⟨[t], j⟩ p n
      = Except.ok (t.get_next_fire_time p n) := rfl

/-- Claim C10: `OrTrigger.get_next_fire_time` is total and never raises:
`min` is only ever evaluated on the non-empty, `None`-free filtered list, so
no empty-sequence `ValueError` (and no comparison involving `None`) can
occur — the result is always an `ok` value. -/
theorem or_never_raises (self : BaseCombiningTrigger) (p : Option Timestamp)
    (n : Timestamp) (off : Int) :
    ∃ r, OrTrigger.get_next_fire_time self p n off = Except.ok r := by
  cases hE : or_fire_times self p n with
  | nil => exact ⟨none, by simp [OrTrigger.get_next_fire_time, hE]⟩
  | cons a l =>
    obtain ⟨m, hm⟩ := pyMin_cons_ok a l
    exact ⟨some (apply_jitter m self.jitter n off),
      by simp [OrTrigger.get_next_fire_time, hE, hm]⟩

/-- Claim C5: deserializing a state whose `version` field is present and
greater than 1 fails with the unsupported-version error (lines 31–34), and
the target combinator is returned unmutated — neither `triggers` nor
`jitter` has been assigned when the guard fires. -/
theorem setstate_version_guard
    (ref_to_obj : String → Option (SubState → Trigger))
    (self : BaseCombiningTrigger) (state : TriggerState) (v : Nat)
    (hv : state.version = some v) (h : 1 < v) :
    BaseCombiningTrigger.setstate ref_to_obj self state
      = (self, some PyError.unsupportedVersion) := by
  simp [BaseCombiningTrigger.setstate, hv, h]

/-- Witness for C5: a concrete state with `version = 2` fed to a concrete
combinator is rejected with the unsupported-version error and the combinator
is unchanged. -/
theorem setstate_version_guard_witness :
    BaseCombiningTrigger.setstate demoReg ⟨[], none⟩ ⟨some 2, [], none⟩
      = (⟨[], none⟩, some PyError.unsupportedVersion) :=
  setstate_version_guard demoReg ⟨[], none⟩ ⟨some 2, [], none⟩ 2 rfl (by decide)

/-- Claim C9: `__setstate__` accepts a serialized state with no `version`
field at all (`state.get('version', 1)`), treating it exactly like
`version = 1`, and its later steps can never raise the unsupported-version
error. -/
theorem setstate_missing_version_defaults_to_one
    (ref_to_obj : String → Option (SubState → Trigger))
    (self : BaseCombiningTrigger) (trigs : List (String × SubState))
    (j : Option Nat) :
    BaseCombiningTrigger.setstate ref_to_obj self ⟨none, trigs, j⟩
      = BaseCombiningTrigger.setstate ref_to_obj self ⟨some 1, trigs, j⟩ ∧
    (BaseCombiningTrigger.setstate ref_to_obj self ⟨none, trigs, j⟩).2
      ≠ some PyError.unsupportedVersion := by
  constructor
  · rfl
  · simp only [BaseCombiningTrigger.setstate]
    simp only [Option.getD_none, gt_iff_lt, lt_irrefl, if_false]
    exact setstateLoop_no_unsupported ref_to_obj trigs []

/-- Claim C3: `OrTrigger.get_next_fire_time` queries each sub-trigger once
with the same `(previous_fire_time, now)` pair (lines 137–139), returns
`None` iff every sub-trigger returned `None`, and otherwise returns the
minimum of the non-`None` results with jitter applied to that minimum
(lines 140–143). -/
theorem or_min_of_non_none (self : BaseCombiningTrigger) (p : Option Timestamp)
    (n : Timestamp) (off : Int) :
    (OrTrigger.get_next_fire_time self p n off = Except.ok none ↔
      ∀ t ∈ self.triggers, t.get_next_fire_time p n = none) ∧
    ∀ r, OrTrigger.get_next_fire_time self p n off = Except.ok (some r) →
      ∃ m, (∃ t ∈ self.triggers, t.get_next_fire_time p n = some m) ∧
        (∀ t ∈ self.triggers, ∀ x, t.get_next_fire_time p n = some x → m ≤ x) ∧
        r = apply_jitter m self.jitter n off := by
  constructor
  · constructor
    · intro hres
      cases hE : or_fire_times self p n with
      | nil => exact or_fire_times_eq_nil.mp hE
      | cons a l =>
        exfalso
        obtain ⟨m, hm⟩ := pyMin_cons_ok a l
        simp [OrTrigger.get_next_fire_time, hE, hm] at hres
    · intro hall
      have hE : or_fire_times self p n = [] := or_fire_times_eq_nil.mpr hall
      simp [OrTrigger.get_next_fire_time, hE]
  · intro r hr
    cases hE : or_fire_times self p n with
    | nil => simp [OrTrigger.get_next_fire_time, hE] at hr
    | cons a l =>
      obtain ⟨m, hm⟩ := pyMin_cons_ok a l
      simp [OrTrigger.get_next_fire_time, hE, hm] at hr
      have hmem : m ∈ or_fire_times self p n := by
        rw [hE]; exact pyMin_mem hm
      refine ⟨m, mem_or_fire_times.mp hmem, ?_, hr.symm⟩
      intro t ht x hx
      have hxmem : x ∈ or_fire_times self p n := mem_or_fire_times.mpr ⟨t, ht, hx⟩
      rw [hE] at hxmem
      exact pyMin_le hm x hxmem

/-- Witness for C3: for an `OrTrigger` over the 2-unit and 3-unit interval
sub-triggers with no jitter, queried at `now = 0`, the result `2` is a
sub-trigger result that is a lower bound of all sub-trigger results, with
(identity) jitter applied. -/
theorem or_min_of_non_none_witness :
    ∃ m, (∃ t ∈ [everyTwo, everyThree], t.get_next_fire_time none 0 = some m) ∧
      (∀ t ∈ [everyTwo, everyThree], ∀ x,
        t.get_next_fire_time none 0 = some x → m ≤ x) ∧
      (2 : Timestamp) = apply_jitter m none 0 0 :=
  (or_min_of_non_none ⟨[everyTwo, everyThree], none⟩ none 0 0).2 2 rfl

/-- Counterexample for C4: the claim asserts that on every path returning a
non-`None` fire time jitter is applied exactly once to the merged result,
for both combinators.  On `AndTrigger`'s single-sub-trigger path (line 88)
no jitter is applied at all: with a jitter bound of 5 set, the call returns
the sub-trigger's raw 100, although the §4.4 jitter applier at (legal) draw
3 would have produced 103. -/
theorem and_single_trigger_ignores_jitter :
    AndTrigger.get_next_fire_time ⟨[alwaysHundred], some 5⟩ none 0
      = Except.ok (some 100) ∧
    some (100 : Timestamp) ≠ some (apply_jitter 100 (some 5) 0 3) :=
  ⟨rfl, by decide⟩

/-- Claim C4 as amended: `OrTrigger` applies jitter exactly once, to the
merged minimum, and never to an individual sub-trigger's output; but
`AndTrigger`'s only path that can return a fire time is the
single-sub-trigger path, which returns that sub-trigger's output unchanged,
with no jitter applied — no multi-trigger path of `AndTrigger` ever returns
a fire time. -/
theorem jitter_once_corrected (self : BaseCombiningTrigger)
    (p : Option Timestamp) (n : Timestamp) (off : Int) :
    (∀ r, OrTrigger.get_next_fire_time self p n off = Except.ok (some r) →
      ∃ m, pyMin (or_fire_times self p n) = Except.ok m ∧
        r = apply_jitter m self.jitter n off) ∧
    (∀ t j, AndTrigger.get_next_fire_time ⟨[t], j⟩ p n
      = Except.ok (t.get_next_fire_time p n)) ∧
    (∀ r, AndTrigger.get_next_fire_time self p n = Except.ok (some r) →
      self.triggers.length ≤ 1) := by
  refine ⟨?_, fun t j => rfl, ?_⟩
  · intro r hr
    cases hE : or_fire_times self p n with
    | nil => simp [OrTrigger.get_next_fire_time, hE] at hr
    | cons a l =>
      obtain ⟨m, hm⟩ := pyMin_cons_ok a l
      refine ⟨m, hm, ?_⟩
      simp [OrTrigger.get_next_fire_time, hE, hm] at hr
      exact hr.symm
  · intro r hr
    cases hT : self.triggers with
    | nil => simp
    | cons a tl =>
      cases tl with
      | nil => simp
      | cons b tl2 =>
        exfalso
        simp [AndTrigger.get_next_fire_time, hT] at hr

/-- Witness for C4's amended claim: the `OrTrigger` over the interval-like
sub-triggers with jitter bound 4 and draw 7 returns 6, i.e. the jitter
applier evaluated on the merged minimum 2; and the single-sub-trigger
`AndTrigger` delegates unchanged. -/
theorem jitter_once_corrected_witness :
    (∃ m, pyMin (or_fire_times ⟨[everyTwo, everyThree], some 4⟩ none 0)
        = Except.ok m ∧
      (6 : Timestamp) = apply_jitter m (some 4) 0 7) ∧
    AndTrigger.get_next_fire_time ⟨[everyTwo], some 4⟩ none 0
      = Except.ok (everyTwo.get_next_fire_time none 0) :=
  ⟨(jitter_once_corrected ⟨[everyTwo, everyThree], some 4⟩ none 0 7).1 6 rfl,
   (jitter_once_corrected ⟨[everyTwo], some 4⟩ none 0 7).2.1 everyTwo (some 4)⟩

/-- Claim C6: serialization round-trip.  Whenever the registry rebuilds each
stored sub-trigger to one with the same `get_next_fire_time` behaviour —
sub-trigger serialization itself is outside this excerpt, per §1 of the spec
— deserializing the result of `__getstate__` raises nothing and yields a
combinator whose `AndTrigger`/`OrTrigger` outputs equal the original's on
every `(previous_fire_time, now)` pair. -/
theorem setstate_getstate_roundtrip
    (ref_to_obj : String → Option (SubState → Trigger))
    (self0 c : BaseCombiningTrigger)
    (h : ∀ t ∈ c.triggers, ∃ mk, ref_to_obj t.clsref = some mk ∧
      SameBehaviour (mk t.getstate) t) :
    (BaseCombiningTrigger.setstate ref_to_obj self0
      (BaseCombiningTrigger.getstate c)).2 = none ∧
    (∀ p n off, OrTrigger.get_next_fire_time
        (BaseCombiningTrigger.setstate ref_to_obj self0
          (BaseCombiningTrigger.getstate c)).1 p n off
      = OrTrigger.get_next_fire_time c p n off) ∧
    (∀ p n, AndTrigger.get_next_fire_time
        (BaseCombiningTrigger.setstate ref_to_obj self0
          (BaseCombiningTrigger.getstate c)).1 p n
      = AndTrigger.get_next_fire_time c p n) := by
  obtain ⟨ctrigs, cj⟩ := c
  have h' : ∀ t ∈ ctrigs, ∃ mk, ref_to_obj t.clsref = some mk ∧
      SameBehaviour (mk t.getstate) t := h
  obtain ⟨ts', hloop, hfa⟩ := setstateLoop_roundtrip ref_to_obj ctrigs [] h'
  have hloop2 : setstateLoop ref_to_obj []
      (ctrigs.map fun t => (t.clsref, t.getstate)) = (ts', none) := by
    simpa using hloop
  have hset : BaseCombiningTrigger.setstate ref_to_obj self0
      (BaseCombiningTrigger.getstate ⟨ctrigs, cj⟩) = (⟨ts', cj⟩, none) := by
    simp [BaseCombiningTrigger.setstate, BaseCombiningTrigger.getstate, hloop2]
  refine ⟨by rw [hset], fun p n off => ?_, fun p n => ?_⟩
  · rw [hset]
    exact or_congr_of_forall₂ hfa cj p n off
  · rw [hset]
    exact and_congr_of_forall₂ hfa cj p n

/-- Witness for C6: a concrete registry and a concrete two-member combinator
with jitter; the round-trip raises nothing and the rebuilt combinator gives
the same `OrTrigger` output at a sample input. -/
theorem setstate_getstate_roundtrip_witness :
    (BaseCombiningTrigger.setstate demoReg ⟨[], none⟩
      (BaseCombiningTrigger.getstate demoCombo)).2 = none ∧
    OrTrigger.get_next_fire_time
      (BaseCombiningTrigger.setstate demoReg ⟨[], none⟩
        (BaseCombiningTrigger.getstate demoCombo)).1 none 0 0
      = OrTrigger.get_next_fire_time demoCombo none 0 0 := by
  have hh : ∀ t ∈ demoCombo.triggers, ∃ mk, demoReg t.clsref = some mk ∧
      SameBehaviour (mk t.getstate) t := by
    intro t ht
    simp [demoCombo] at ht
    rcases ht with rfl | rfl <;> exact ⟨demoMk, rfl, rfl⟩
  have h := setstate_getstate_roundtrip demoReg ⟨[], none⟩ demoCombo hh
  exact ⟨h.1, h.2.1 none 0 0⟩
